import Mathlib

/-!
Shallow embedding of `pynsot/cli.py`: the plugin command loader (`CLI`)
and the resource controller (`App`) with its four actions
(`add`, `list`, `remove`, `update`), its error handler, field mapper and
table printer.  Python dicts are embedded as insertion-ordered association
lists; the `ApiClient` transport is an oracle argument (each remote call's
result is supplied as an `Except` value), and each action returns the
sequence of HTTP calls it issued together with its user-visible outcome.
-/

set_option autoImplicit false

/-- Scalar values carried in API objects and CLI parameters. -/
inductive Val
  | str (s : String)
  | int (n : Int)
deriving DecidableEq

/-- A Python dict, embedded as an insertion-ordered association list with
string keys (keys are unique in any dict the program builds). -/
abbrev Dict (V : Type) := List (String × V)

/-- A `ParamSet`: CLI-supplied field values.  A key that is absent is not in
the list; a key supplied with Python `None` (null) maps to `none`. -/
abbrev ParamSet := Dict (Option Val)

/-- `d[k]` as a total lookup: the value at the first matching key. -/
def Dict.lookup {V : Type} : Dict V → String → Option V
  | [], _ => none
  | kv :: rest, k => if kv.1 = k then some kv.2 else Dict.lookup rest k

/-- Removal of key `k` (Python `del` / the removal part of `dict.pop`). -/
def Dict.erase {V : Type} : Dict V → String → Dict V
  | [], _ => []
  | kv :: rest, k => if kv.1 = k then Dict.erase rest k else kv :: Dict.erase rest k

/-- `d.pop(k)` without a default: the value at `k` and the dict without `k`,
or `none` when the key is missing (Python raises `KeyError`). -/
def Dict.pop {V : Type} (d : Dict V) (k : String) : Option (V × Dict V) :=
  match Dict.lookup d k with
  | none => none
  | some v => some (v, Dict.erase d k)

/-- `d[k] = v`: replace the value in place when the key exists (keeping its
insertion position), otherwise append the new pair at the end. -/
def Dict.setItem {V : Type} : Dict V → String → V → Dict V
  | [], k, v => [(k, v)]
  | kv :: rest, k, v =>
    if kv.1 = k then (k, v) :: rest else kv :: Dict.setItem rest k v

/-- Python `repr` of a parameter value as used by `pretty_dict`
(`None`, a quoted string, or a decimal integer). -/
def reprParam : Option Val → String
  | none => "None"
  | some (Val.str s) => "\x27" ++ s ++ "\x27"
  | some (Val.int n) => toString n

/-- `App.pretty_dict`: render a dict in `k=v` form, comma-separated
(`', '.join('%s=%r' % (k, v) for k, v in data.items())`). -/
def pretty_dict (data : ParamSet) : String :=
  String.intercalate ", " (data.map (fun kv => kv.1 ++ "=" ++ reprParam kv.2))

/-- The structured part of an HTTP error response (`err.response`). -/
structure HttpResponse where
  status_code : Nat
  reason : String
deriving DecidableEq

/-- An `HttpClientError`: an optional structured response plus the raw
rendering `str(err)` used when no response is attached. -/
structure HttpErr where
  response : Option HttpResponse
  raw : String
deriving DecidableEq

/-- One HTTP call issued to the API; the PUT records the payload body it
was given, which is what the update claims are about. -/
inductive Call
  | get
  | post
  | put (body : Dict Val)
  | delete
deriving DecidableEq

/-- The HTTP verb of a call. -/
inductive Verb
  | GET
  | POST
  | PUT
  | DELETE
deriving DecidableEq

def Call.verb : Call → Verb
  | Call.get => Verb.GET
  | Call.post => Verb.POST
  | Call.put _ => Verb.PUT
  | Call.delete => Verb.DELETE

/-- Headers and rows of a rendered table (the Formatter's output; the
pager-vs-echo choice is presentation only and is not modelled). -/
structure TableOut where
  headers : List String
  rows : List (List Val)
deriving DecidableEq

/-- The user-visible outcome of one invocation.
`success`/`noResults`/`listed` end the process normally (exit code 0);
`fatal msg` is `ctx.exit(msg)`, i.e. `SystemExit` carrying a string, which
prints the message and exits with code 1; `crash` is an uncaught Python
exception (also a non-zero exit). -/
inductive Outcome
  | success (msg : String)
  | noResults (msg : String)
  | listed (t : TableOut)
  | fatal (msg : String)
  | crash (exc : String)
deriving DecidableEq

/-- Process exit code of an outcome. -/
def Outcome.exitCode : Outcome → Nat
  | Outcome.success _ => 0
  | Outcome.noResults _ => 0
  | Outcome.listed _ => 0
  | Outcome.fatal _ => 1
  | Outcome.crash _ => 1

/-- `App.handle_error`: the single error handler all four actions funnel
remote failures through.  With a structured response it formats
`'[FATAL] %s %s trying to %s %s with args: %s'` from the status code,
reason, action, singular resource name and pretty-printed args; without
one it formats `'[FATAL] %s' % err`. -/
def handle_error (action singular : String) (data : ParamSet) (err : HttpErr) :
    String :=
  match err.response with
  | some resp =>
    "[FATAL] " ++ toString resp.status_code ++ " " ++ resp.reason ++
      " trying to " ++ action ++ " " ++ singular ++ " with args: " ++
      pretty_dict data
  | none => "[FATAL] " ++ err.raw

/-- `App.handle_response`: the success message
`'Successfully %sed %s with args: %s!'`. -/
def handle_response (action singular : String) (data : ParamSet) : String :=
  "Successfully " ++ action ++ "ed " ++ singular ++ " with args: " ++
    pretty_dict data ++ "!"

/-- The module-level `FIELDS_MAP` constant. -/
def FIELDS_MAP : Dict String :=
  [("id", "ID"), ("name", "Name"), ("description", "Description")]

/-- The list comprehension `[fields_map[f] for f in fields]`: all headers,
or `none` as soon as one lookup raises `KeyError`. -/
def lookupAll (fields_map : Dict String) : List String → Option (List String)
  | [] => some []
  | f :: fs =>
    match Dict.lookup fields_map f with
    | none => none
    | some h =>
      match lookupAll fields_map fs with
      | none => none
      | some hs => some (h :: hs)

/-- `App.map_fields`: map field names to display headers; a `KeyError` is
caught and converted into `ctx.exit` with a fixed message (note the source
never interpolates the `%r` placeholder). -/
def map_fields (fields : List String) (fields_map : Dict String) :
    Except String (List String) :=
  match lookupAll fields_map fields with
  | none => Except.error "Could not map field %r when displaying results."
  | some headers => Except.ok headers

/-- The row comprehension `[obj[f] for f in fields]`; `none` means an
uncaught `KeyError` on a missing field. -/
def projectRow (obj : Dict Val) : List String → Option (List Val)
  | [] => some []
  | f :: fs =>
    match Dict.lookup obj f with
    | none => none
    | some v =>
      match projectRow obj fs with
      | none => none
      | some vs => some (v :: vs)

/-- `[[obj[f] for f in fields] for obj in objects]`. -/
def projectRows (objects : List (Dict Val)) (fields : List String) :
    Option (List (List Val)) :=
  match objects with
  | [] => some []
  | obj :: rest =>
    match projectRow obj fields with
    | none => none
    | some row =>
      match projectRows rest fields with
      | none => none
      | some rows => some (row :: rows)

/-- `App.print_list`: default `fields` to the first object's keys (an
`IndexError` crash when there are no objects), default the field map to
`FIELDS_MAP`, map headers (fatal `ctx.exit` on failure), then build the
table rows (uncaught `KeyError` on a missing field) and echo the table. -/
def print_list (objects : List (Dict Val)) (fields? : Option (List String))
    (fields_map? : Option (Dict String)) : Outcome :=
  let fieldsRes : Option (List String) :=
    match fields? with
    | some fs => some fs
    | none =>
      match objects with
      | [] => none
      | first_obj :: _ => some (first_obj.map (fun kv => kv.1))
  match fieldsRes with
  | none => Outcome.crash "IndexError"
  | some fields =>
    let fields_map := fields_map?.getD FIELDS_MAP
    match map_fields fields fields_map with
    | Except.error msg => Outcome.fatal msg
    | Except.ok headers =>
      match projectRows objects fields with
      | none => Outcome.crash "KeyError"
      | some rows => Outcome.listed ⟨headers, rows⟩

/-- `App.add`: POST the params; route failure through `handle_error`,
success through `handle_response`. -/
def App.add (singular : String) (data : ParamSet)
    (postRes : Except HttpErr Unit) : List Call × Outcome :=
  match postRes with
  | Except.error err =>
    ([Call.post], Outcome.fatal (handle_error "add" singular data err))
  | Except.ok _ =>
    ([Call.post], Outcome.success (handle_response "add" singular data))

/-- `App.list`: GET with the params as filters.  The oracle's success value
models `result`: `none` for a falsy `result`, `some objs` for
`result['data'][self.resource_name]`.  Zero objects yields the
informational `'No %s found matching args: %s!'` message; otherwise the
objects go to `print_list` (with no explicit field map). -/
def App.list (singular : String) (data : ParamSet)
    (fields? : Option (List String))
    (getRes : Except HttpErr (Option (List (Dict Val)))) :
    List Call × Outcome :=
  match getRes with
  | Except.error err =>
    ([Call.get], Outcome.fatal (handle_error "list" singular data err))
  | Except.ok result =>
    let objects : List (Dict Val) :=
      match result with
      | none => []
      | some objs => objs
    match objects with
    | [] =>
      ([Call.get], Outcome.noResults
        ("No " ++ singular ++ " found matching args: " ++ pretty_dict data ++ "!"))
    | _ :: _ => ([Call.get], print_list objects fields? none)

/-- `App.remove`: read `data['id']` (uncaught `KeyError` when missing),
then DELETE the single-object endpoint. -/
def App.remove (singular : String) (data : ParamSet)
    (deleteRes : Except HttpErr Unit) : List Call × Outcome :=
  match Dict.lookup data "id" with
  | none => ([], Outcome.crash "KeyError")
  | some _ =>
    match deleteRes with
    | Except.error err =>
      ([Call.delete], Outcome.fatal (handle_error "remove" singular data err))
    | Except.ok _ =>
      ([Call.delete], Outcome.success (handle_response "remove" singular data))

/-- The overlay loop of `App.update`:
`for k, v in data.items(): if v is not None: payload[k] = v`. -/
def overlay (payload : Dict Val) : ParamSet → Dict Val
  | [] => payload
  | (k, v?) :: rest =>
    overlay
      (match v? with
       | some v => Dict.setItem payload k v
       | none => payload)
      rest

/-- Modelled from the spec: `pynsot.models.ApiModel` is imported by the CLI
but its module is not among the sources; per the spec the update payload is
built "by copying every field of the fetched RemoteObject", so
`dict(ApiModel(obj))` is taken to be the fetched object's own field
mapping. -/
def apiModelDict (obj : Dict Val) : Dict Val := obj

/-- `App.update`: pop `'id'` from the params (uncaught `KeyError` when
missing), GET the current object (failure goes to `handle_error` and
aborts), copy it and pop `'id'` from the copy (uncaught `KeyError` when
the fetched object has no `'id'`), overlay the non-null params, then PUT
the payload, routing failure/success like the other actions. -/
def App.update (singular : String) (data : ParamSet)
    (getRes : Except HttpErr (Dict Val))
    (putRes : Dict Val → Except HttpErr Unit) : List Call × Outcome :=
  match Dict.pop data "id" with
  | none => ([], Outcome.crash "KeyError")
  | some (_obj_id, data) =>
    match getRes with
    | Except.error err =>
      ([Call.get], Outcome.fatal (handle_error "update" singular data err))
    | Except.ok obj =>
      match Dict.pop (apiModelDict obj) "id" with
      | none => ([Call.get], Outcome.crash "KeyError")
      | some (_, payload0) =>
        let payload := overlay payload0 data
        match putRes payload with
        | Except.error err =>
          ([Call.get, Call.put payload],
            Outcome.fatal (handle_error "update" singular data err))
        | Except.ok _ =>
          ([Call.get, Call.put payload],
            Outcome.success (handle_response "update" singular data))

/-- Python `str.endswith`, as a suffix test on the character list. -/
def strEndsWith (s suffix : String) : Bool :=
  List.isSuffixOf suffix.data s.data

/-- Python `str.startswith`, as a prefix test on the character list. -/
def strStartsWith (s pre : String) : Bool :=
  List.isPrefixOf pre.data s.data

/-- Python string comparison, lexicographic on code points, as the
boolean `<=` that `list.sort` is ordered by. -/
def charListLe : List Char → List Char → Bool
  | [], _ => true
  | _ :: _, [] => false
  | a :: as, b :: bs =>
    if a < b then true
    else if b < a then false
    else charListLe as bs

/-- `a <= b` on strings, comparing their character lists. -/
def strLe (a b : String) : Bool :=
  charListLe a.data b.data

/-- Whether a plugin filename matches the `cmd_<name>.py` convention
(`filename.endswith('.py') and filename.startswith('cmd_')`). -/
def matchesPlugin (filename : String) : Bool :=
  strEndsWith filename ".py" && strStartsWith filename "cmd_"

/-- `filename[4:-3]`: strip the `cmd_` head and the `.py` tail. -/
def stripPlugin (filename : String) : String :=
  (filename.drop 4).dropRight 3

/-- `CLI.list_commands`: collect the `<name>` of every `cmd_<name>.py` file
in the plugin folder (given here as the folder's listing) and sort the
names ascending (`rv.sort()`). -/
def CLI.list_commands (files : List String) : List String :=
  List.insertionSort (fun a b => strLe a b = true)
    ((files.filter matchesPlugin).map stripPlugin)

/-- How the lazy `__import__` of `pynsot.commands.cmd_<name>` (plus the
final `mod.cli` attribute access) can turn out. -/
inductive ImportOutcome
  | ok (cli : String)
  | noCliAttr
  | importError (msg : String)
  | otherError (exc : String)
deriving DecidableEq

/-- Result of `CLI.get_command`. -/
inductive GetCommandResult
  | found (cli : String)
  | notFound
  | crash (exc : String)
deriving DecidableEq

/-- `CLI.get_command`: import the command module; only `ImportError` is
caught (printed, returning `None`); any other exception raised while the
module loads propagates, as does the `AttributeError` from `mod.cli` when
the module lacks a `cli` attribute. -/
def CLI.get_command (outcome : ImportOutcome) : GetCommandResult :=
  match outcome with
  | ImportOutcome.ok cli => GetCommandResult.found cli
  | ImportOutcome.noCliAttr => GetCommandResult.crash "AttributeError"
  | ImportOutcome.importError _ => GetCommandResult.notFound
  | ImportOutcome.otherError exc => GetCommandResult.crash exc

/-! ### Dictionary lemmas -/

theorem Dict.lookup_setItem {V : Type} (d : Dict V) (k k' : String) (v : V) :
    Dict.lookup (Dict.setItem d k v) k' =
      if k' = k then some v else Dict.lookup d k' := by
  induction d with
  | nil =>
    by_cases h : k' = k
    · subst h
      simp [Dict.setItem, Dict.lookup]
    · have h1 : ¬ k = k' := fun hc => h hc.symm
      simp [Dict.setItem, Dict.lookup, h, h1]
  | cons kv rest ih =>
    by_cases hk : kv.1 = k
    · by_cases h : k' = k
      · subst h
        simp [Dict.setItem, Dict.lookup, hk]
      · have h1 : ¬ k = k' := fun hc => h hc.symm
        have h2 : ¬ kv.1 = k' := fun hc => h (hc.symm.trans hk)
        simp [Dict.setItem, Dict.lookup, hk, h, h1, h2]
    · by_cases h' : kv.1 = k'
      · have h3 : ¬ k' = k := fun hc => hk (h'.trans hc)
        simp [Dict.setItem, Dict.lookup, hk, h', h3]
      · simp [Dict.setItem, Dict.lookup, hk, h', ih]

theorem Dict.lookup_erase_self {V : Type} (d : Dict V) (k : String) :
    Dict.lookup (Dict.erase d k) k = none := by
  induction d with
  | nil => simp [Dict.erase, Dict.lookup]
  | cons kv rest ih =>
    by_cases hk : kv.1 = k <;> simp [Dict.erase, Dict.lookup, hk, ih]

theorem Dict.lookup_erase_ne {V : Type} (d : Dict V) (k k' : String)
    (h : k' ≠ k) : Dict.lookup (Dict.erase d k) k' = Dict.lookup d k' := by
  induction d with
  | nil => simp [Dict.erase]
  | cons kv rest ih =>
    by_cases hk : kv.1 = k
    · have h2 : ¬ kv.1 = k' := fun hc => h (hc.symm.trans hk)
      have h3 : ¬ k = k' := fun hc => h hc.symm
      simp [Dict.erase, Dict.lookup, hk, h2, h3, ih]
    · by_cases h' : kv.1 = k' <;>
        simp [Dict.erase, Dict.lookup, hk, h', h, ih]

theorem Dict.key_ne_of_mem_erase {V : Type} (d : Dict V) (k : String)
    (kv : String × V) (h : kv ∈ Dict.erase d k) : kv.1 ≠ k := by
  induction d with
  | nil => simp [Dict.erase] at h
  | cons kv0 rest ih =>
    by_cases hk : kv0.1 = k
    · exact ih (by simpa [Dict.erase, hk] using h)
    · rw [Dict.erase] at h
      simp only [hk, if_false, List.mem_cons] at h
      rcases h with h | h
      · subst h; exact hk
      · exact ih h

theorem Dict.lookup_eq_none_of_not_mem {V : Type} (d : Dict V) (k : String)
    (h : k ∉ d.map Prod.fst) : Dict.lookup d k = none := by
  induction d with
  | nil => rfl
  | cons kv rest ih =>
    simp only [List.map_cons, List.mem_cons] at h
    push_neg at h
    have h1 : ¬ kv.1 = k := fun hc => h.1 hc.symm
    simp [Dict.lookup, h1, ih h.2]

/-- Entries whose key never equals `k` leave `k`'s binding untouched. -/
theorem lookup_overlay_of_ne (data : ParamSet) (payload : Dict Val)
    (k : String) (h : ∀ kv ∈ data, kv.1 ≠ k) :
    Dict.lookup (overlay payload data) k = Dict.lookup payload k := by
  induction data generalizing payload with
  | nil => rfl
  | cons kv rest ih =>
    have hk : kv.1 ≠ k := h kv (List.mem_cons_self kv rest)
    have hrest : ∀ kv ∈ rest, kv.1 ≠ k :=
      fun kv hm => h kv (List.mem_cons_of_mem _ hm)
    obtain ⟨k0, v?⟩ := kv
    cases v? with
    | none => simpa [overlay] using ih payload hrest
    | some v =>
      rw [overlay]
      rw [ih _ hrest]
      rw [Dict.lookup_setItem]
      have h1 : ¬ k = k0 := fun hc => hk hc.symm
      rw [if_neg h1]

/-- The overlay loop realises the merge: a key supplied with a non-null
value takes the supplied value, any other key keeps the payload's value
(requires the params' keys to be unique, as Python dict keys are). -/
theorem lookup_overlay (data : ParamSet) (payload : Dict Val) (k : String)
    (hnd : (data.map Prod.fst).Nodup) :
    Dict.lookup (overlay payload data) k =
      match Dict.lookup data k with
      | some (some v) => some v
      | _ => Dict.lookup payload k := by
  induction data generalizing payload with
  | nil => rfl
  | cons kv rest ih =>
    obtain ⟨k0, v?⟩ := kv
    simp only [List.map_cons, List.nodup_cons] at hnd
    obtain ⟨hk0, hndrest⟩ := hnd
    by_cases hk : k0 = k
    · subst hk
      have hnone : Dict.lookup rest k0 = none :=
        Dict.lookup_eq_none_of_not_mem rest k0 hk0
      cases v? with
      | none =>
        rw [overlay, ih payload hndrest, hnone]
        simp [Dict.lookup]
      | some v =>
        rw [overlay, ih _ hndrest, hnone]
        simp [Dict.lookup, Dict.lookup_setItem]
    · have hlk : Dict.lookup ((k0, v?) :: rest) k = Dict.lookup rest k := by
        simp [Dict.lookup, hk]
      cases v? with
      | none =>
        rw [overlay, ih payload hndrest, hlk]
      | some v =>
        rw [overlay, ih _ hndrest, hlk]
        have h1 : ¬ k = k0 := fun hc => hk hc.symm
        have hset : Dict.lookup (Dict.setItem payload k0 v) k
            = Dict.lookup payload k := by
          rw [Dict.lookup_setItem, if_neg h1]
        cases hrk : Dict.lookup rest k with
        | none => simp [hset]
        | some w => cases w <;> simp [hset]

/-- A field missing from the map makes the whole comprehension raise. -/
theorem lookupAll_eq_none (fields_map : Dict String) (fields : List String)
    (f : String) (hf : f ∈ fields) (hm : Dict.lookup fields_map f = none) :
    lookupAll fields_map fields = none := by
  induction fields with
  | nil => cases hf
  | cons f0 fs ih =>
    rcases List.mem_cons.mp hf with h | h
    · subst h
      simp [lookupAll, hm]
    · rw [lookupAll]
      cases Dict.lookup fields_map f0 with
      | none => rfl
      | some h0 => rw [ih h]

/-- Characterisation of a successful `Dict.pop`. -/
theorem Dict.pop_eq_some {V : Type} (d : Dict V) (k : String) (v : V)
    (rest : Dict V) (h : Dict.pop d k = some (v, rest)) :
    Dict.lookup d k = some v ∧ rest = Dict.erase d k := by
  rw [Dict.pop] at h
  cases hl : Dict.lookup d k with
  | none => rw [hl] at h; cases h
  | some w =>
    rw [hl] at h
    injection h with h1
    injection h1 with h2 h3
    exact ⟨by rw [h2], h3.symm⟩

/-- `charListLe` agrees with the (negated, swapped) lexicographic strict
order on character lists. -/
theorem charListLe_iff_not_lex (as bs : List Char) :
    charListLe as bs = true ↔ ¬ List.Lex (· < ·) bs as := by
  induction as generalizing bs with
  | nil =>
    simp only [charListLe]
    constructor
    · intro _ h
      exact List.Lex.not_nil_right _ _ h
    · intro _; trivial
  | cons a as ih =>
    cases bs with
    | nil =>
      simp only [charListLe]
      constructor
      · intro h; exact Bool.noConfusion h
      · intro h; exact absurd List.Lex.nil h
    | cons b bs =>
      rw [charListLe]
      rcases lt_trichotomy a b with hab | hab | hab
      · rw [if_pos hab]
        simp only [true_iff]
        intro h
        cases h with
        | rel hr => exact absurd hr (asymm hab)
        | cons hr => exact absurd hab (lt_irrefl _)
      · subst hab
        rw [if_neg (lt_irrefl a), if_neg (lt_irrefl a)]
        rw [ih bs]
        constructor
        · intro h hlex
          cases hlex with
          | rel hr => exact absurd hr (lt_irrefl a)
          | cons hr => exact h hr
        · intro h hlex
          exact h (List.Lex.cons hlex)
      · rw [if_neg (asymm hab), if_pos hab]
        constructor
        · intro h; exact Bool.noConfusion h
        · intro h; exact absurd (List.Lex.rel hab) h

/-- The boolean comparison used for sorting agrees with the string
order. -/
theorem strLe_iff (a b : String) : strLe a b = true ↔ a ≤ b := by
  rw [String.le_iff_toList_le, ← not_lt]
  exact charListLe_iff_not_lex a.data b.data

/-! ### Claim theorems -/

/-- C1: for an update whose params contain the identifier, the payload of
the final PUT is exactly the fetched object minus its `id` field overlaid
with the non-null remaining params; every fetched field that the params do
not name with a non-null value keeps its fetched value. -/
theorem update_preserves_unspecified_fields
    (singular : String) (params : ParamSet) (obj : Dict Val)
    (putRes : Dict Val → Except HttpErr Unit)
    (idv : Option Val) (rest : ParamSet) (idov : Val) (payload0 : Dict Val)
    (hpop : Dict.pop params "id" = some (idv, rest))
    (hpopo : Dict.pop obj "id" = some (idov, payload0))
    (hnd : (rest.map Prod.fst).Nodup) :
    (App.update singular params (Except.ok obj) putRes).1
      = [Call.get, Call.put (overlay payload0 rest)]
    ∧ ∀ k, k ≠ "id" →
        Dict.lookup (overlay payload0 rest) k =
          match Dict.lookup rest k with
          | some (some v) => some v
          | _ => Dict.lookup obj k := by
  constructor
  · have hpo : Dict.pop (apiModelDict obj) "id" = some (idov, payload0) := hpopo
    cases hput : putRes (overlay payload0 rest) <;>
      simp [App.update, hpop, hpo, hput]
  · intro k hk
    have hpl : payload0 = Dict.erase obj "id" := (Dict.pop_eq_some _ _ _ _ hpopo).2
    rw [lookup_overlay rest payload0 k hnd, hpl,
      Dict.lookup_erase_ne obj "id" k hk]

theorem update_preserves_unspecified_fields_witness :
    (App.update "device"
        [("id", some (Val.int 1)), ("description", some (Val.str "y"))]
        (Except.ok
          [("id", Val.int 1), ("name", Val.str "a"), ("description", Val.str "x")])
        (fun _ => Except.ok ())).1
      = [Call.get,
          Call.put [("name", Val.str "a"), ("description", Val.str "y")]] :=
  (update_preserves_unspecified_fields "device"
    [("id", some (Val.int 1)), ("description", some (Val.str "y"))]
    [("id", Val.int 1), ("name", Val.str "a"), ("description", Val.str "x")]
    (fun _ => Except.ok ())
    (some (Val.int 1)) [("description", some (Val.str "y"))]
    (Val.int 1) [("name", Val.str "a"), ("description", Val.str "x")]
    (by decide) (by decide) (by decide)).1

/-- C2: whatever the supplied params, the fetched object and the remote
results, any payload handed to the single-object PUT during an update has
no `id` key. -/
theorem update_payload_never_contains_id
    (singular : String) (params : ParamSet)
    (getRes : Except HttpErr (Dict Val))
    (putRes : Dict Val → Except HttpErr Unit) (body : Dict Val)
    (hmem : Call.put body ∈ (App.update singular params getRes putRes).1) :
    Dict.lookup body "id" = none := by
  cases hpp : Dict.pop params "id" with
  | none => simp [App.update, hpp] at hmem
  | some pr =>
    obtain ⟨idv, rest⟩ := pr
    cases getRes with
    | error err => simp [App.update, hpp] at hmem
    | ok obj =>
      cases hpo : Dict.pop (apiModelDict obj) "id" with
      | none => simp [App.update, hpp, hpo] at hmem
      | some pr2 =>
        obtain ⟨idov, payload0⟩ := pr2
        have hbody : body = overlay payload0 rest := by
          cases hput : putRes (overlay payload0 rest) <;>
            simpa [App.update, hpp, hpo, hput] using hmem
        have hrest : rest = Dict.erase params "id" :=
          (Dict.pop_eq_some _ _ _ _ hpp).2
        have hpl : payload0 = Dict.erase (apiModelDict obj) "id" :=
          (Dict.pop_eq_some _ _ _ _ hpo).2
        rw [hbody, hrest, hpl,
          lookup_overlay_of_ne _ _ _
            (fun kv hm => Dict.key_ne_of_mem_erase params "id" kv hm)]
        exact Dict.lookup_erase_self _ "id"

theorem update_payload_never_contains_id_witness :
    Dict.lookup [("name", Val.str "a"), ("description", Val.str "y")] "id"
      = none :=
  update_payload_never_contains_id "device"
    [("id", some (Val.int 1)), ("description", some (Val.str "y"))]
    (Except.ok
      [("id", Val.int 1), ("name", Val.str "a"), ("description", Val.str "x")])
    (fun _ => Except.ok ())
    [("name", Val.str "a"), ("description", Val.str "y")]
    (by decide)

/-- C9: when the initial GET of an update fails, the invocation ends with
the standard fatal error handling and the PUT is never issued — the only
remote call on that path is the GET. -/
theorem update_get_failure_issues_no_put
    (singular : String) (params : ParamSet) (err : HttpErr)
    (putRes : Dict Val → Except HttpErr Unit)
    (idv : Option Val) (rest : ParamSet)
    (hpop : Dict.pop params "id" = some (idv, rest)) :
    App.update singular params (Except.error err) putRes
      = ([Call.get], Outcome.fatal (handle_error "update" singular rest err))
    ∧ ∀ body,
        Call.put body ∉ (App.update singular params (Except.error err) putRes).1 := by
  have h1 : App.update singular params (Except.error err) putRes
      = ([Call.get], Outcome.fatal (handle_error "update" singular rest err)) := by
    simp [App.update, hpop]
  refine ⟨h1, ?_⟩
  intro body hmem
  rw [h1] at hmem
  simp at hmem

theorem update_get_failure_issues_no_put_witness :
    App.update "device" [("id", some (Val.int 1))]
        (Except.error ⟨some ⟨404, "NOT FOUND"⟩, "404 Client Error"⟩)
        (fun _ => Except.ok ())
      = ([Call.get],
          Outcome.fatal
            (handle_error "update" "device" []
              ⟨some ⟨404, "NOT FOUND"⟩, "404 Client Error"⟩)) :=
  (update_get_failure_issues_no_put "device" [("id", some (Val.int 1))]
    ⟨some ⟨404, "NOT FOUND"⟩, "404 Client Error"⟩ (fun _ => Except.ok ())
    (some (Val.int 1)) [] (by decide)).1

/-- The Formatter (`print_list`) never produces the empty-result message:
its outcomes are a rendered table, the fatal mapping error, or a crash. -/
theorem print_list_ne_noResults (objects : List (Dict Val))
    (fields? : Option (List String)) (fields_map? : Option (Dict String))
    (m : String) :
    print_list objects fields? fields_map? ≠ Outcome.noResults m := by
  simp only [print_list]
  split
  · simp
  · split
    · simp
    · split
      · simp
      · simp

/-- C3 counterexample: at a concrete update call the controller issues a
GET in addition to the PUT, so the update action does not issue exactly
the verb PUT and no other. -/
theorem action_verb_claim_counterexample :
    ¬ (∀ c ∈ (App.update "device"
          [("id", some (Val.int 1)), ("description", some (Val.str "y"))]
          (Except.ok
            [("id", Val.int 1), ("name", Val.str "a"),
              ("description", Val.str "x")])
          (fun _ => Except.ok ())).1,
        Call.verb c = Verb.PUT) := by
  decide

/-- C3 amended: add issues exactly one POST, list exactly one GET, remove
exactly one DELETE; update first issues a GET (the fetch) and then at most
one write call, whose verb is PUT. -/
theorem action_verb_mapping_amended :
    (∀ (s : String) (d : ParamSet) (r : Except HttpErr Unit),
        (App.add s d r).1.map Call.verb = [Verb.POST])
  ∧ (∀ (s : String) (d : ParamSet) (f : Option (List String))
        (r : Except HttpErr (Option (List (Dict Val)))),
        (App.list s d f r).1.map Call.verb = [Verb.GET])
  ∧ (∀ (s : String) (d : ParamSet) (r : Except HttpErr Unit),
        Dict.lookup d "id" ≠ none →
        (App.remove s d r).1.map Call.verb = [Verb.DELETE])
  ∧ (∀ (s : String) (d : ParamSet) (g : Except HttpErr (Dict Val))
        (p : Dict Val → Except HttpErr Unit),
        Dict.pop d "id" ≠ none →
        (App.update s d g p).1.map Call.verb = [Verb.GET]
        ∨ (App.update s d g p).1.map Call.verb = [Verb.GET, Verb.PUT]) := by
  refine ⟨?_, ?_, ?_, ?_⟩
  · intro s d r
    cases r <;> simp [App.add, Call.verb]
  · intro s d f r
    cases r with
    | error err => simp [App.list, Call.verb]
    | ok result =>
      cases result with
      | none => simp [App.list, Call.verb]
      | some objs => cases objs <;> simp [App.list, Call.verb]
  · intro s d r h
    cases hl : Dict.lookup d "id" with
    | none => exact absurd hl h
    | some v => cases r <;> simp [App.remove, Call.verb, hl]
  · intro s d g p h
    cases hpp : Dict.pop d "id" with
    | none => exact absurd hpp h
    | some pr =>
      obtain ⟨idv, rest⟩ := pr
      cases g with
      | error err => left; simp [App.update, Call.verb, hpp]
      | ok obj =>
        cases hpo : Dict.pop (apiModelDict obj) "id" with
        | none => left; simp [App.update, Call.verb, hpp, hpo]
        | some pr2 =>
          obtain ⟨idov, payload0⟩ := pr2
          right
          cases hput : p (overlay payload0 rest) <;>
            simp [App.update, Call.verb, hpp, hpo, hput]

theorem action_verb_mapping_amended_witness :
    ((App.remove "device" [("id", some (Val.int 1))]
        (Except.ok ())).1.map Call.verb = [Verb.DELETE])
  ∧ ((App.update "device" [("id", some (Val.int 1))]
        (Except.ok [("id", Val.int 1)]) (fun _ => Except.ok ())).1.map Call.verb
        = [Verb.GET]
      ∨ (App.update "device" [("id", some (Val.int 1))]
          (Except.ok [("id", Val.int 1)]) (fun _ => Except.ok ())).1.map Call.verb
        = [Verb.GET, Verb.PUT]) :=
  ⟨action_verb_mapping_amended.2.2.1 "device" [("id", some (Val.int 1))]
      (Except.ok ()) (by decide),
    action_verb_mapping_amended.2.2.2 "device" [("id", some (Val.int 1))]
      (Except.ok [("id", Val.int 1)]) (fun _ => Except.ok ()) (by decide)⟩

/-- C4: a list call whose GET succeeds with zero matching objects prints
the informational `No <singular> found matching args: <params>!` line,
exits with code 0, and produces an outcome the Formatter cannot produce
(so `print_list` was not invoked). -/
theorem empty_list_not_error
    (singular : String) (data : ParamSet) (fields? : Option (List String))
    (result : Option (List (Dict Val)))
    (hempty : result = none ∨ result = some []) :
    (App.list singular data fields? (Except.ok result)).2
      = Outcome.noResults
          ("No " ++ singular ++ " found matching args: " ++
            pretty_dict data ++ "!")
    ∧ Outcome.exitCode (App.list singular data fields? (Except.ok result)).2 = 0
    ∧ ∀ (objects : List (Dict Val)) (fs : Option (List String))
        (fm : Option (Dict String)),
        print_list objects fs fm
          ≠ (App.list singular data fields? (Except.ok result)).2 := by
  have h1 : (App.list singular data fields? (Except.ok result)).2
      = Outcome.noResults
          ("No " ++ singular ++ " found matching args: " ++
            pretty_dict data ++ "!") := by
    rcases hempty with h | h <;> subst h <;> simp [App.list]
  refine ⟨h1, by rw [h1]; rfl, ?_⟩
  intro objects fs fm
  rw [h1]
  exact print_list_ne_noResults objects fs fm _

theorem empty_list_not_error_witness :
    (App.list "device" [("hostname", some (Val.str "dev1"))] none
        (Except.ok (some []))).2
      = Outcome.noResults
          "No device found matching args: hostname=\x27dev1\x27!" :=
  (empty_list_not_error "device" [("hostname", some (Val.str "dev1"))] none
    (some []) (Or.inr rfl)).1

/-- C5: a requested field absent from the field map makes `map_fields`
fail with the fixed fatal message; `print_list` then terminates with that
message and exit code 1 and renders no table at all. -/
theorem field_mapping_fails_closed
    (fields : List String) (fields_map : Dict String)
    (objects : List (Dict Val)) (f : String)
    (hf : f ∈ fields) (hmiss : Dict.lookup fields_map f = none) :
    map_fields fields fields_map
      = Except.error "Could not map field %r when displaying results."
    ∧ print_list objects (some fields) (some fields_map)
      = Outcome.fatal "Could not map field %r when displaying results."
    ∧ Outcome.exitCode (print_list objects (some fields) (some fields_map)) = 1
    ∧ ∀ t, print_list objects (some fields) (some fields_map)
        ≠ Outcome.listed t := by
  have h1 : map_fields fields fields_map
      = Except.error "Could not map field %r when displaying results." := by
    rw [map_fields, lookupAll_eq_none fields_map fields f hf hmiss]
  have h2 : print_list objects (some fields) (some fields_map)
      = Outcome.fatal "Could not map field %r when displaying results." := by
    simp only [print_list, Option.getD_some]
    rw [h1]
  refine ⟨h1, h2, by rw [h2]; rfl, ?_⟩
  intro t
  rw [h2]
  simp

theorem field_mapping_fails_closed_witness :
    print_list [[("id", Val.int 1)]] (some ["id", "owner"]) (some FIELDS_MAP)
      = Outcome.fatal "Could not map field %r when displaying results." :=
  (field_mapping_fails_closed ["id", "owner"] FIELDS_MAP [[("id", Val.int 1)]]
    "owner" (by decide) (by decide)).2.1

/-- C10: every failure of `map_fields` carries the same fixed message with
the uninterpolated `%r` placeholder — the message is identical for all
inputs and never names the missing field. -/
theorem map_fields_error_message_constant
    (fields fields2 : List String) (m m2 : Dict String) (msg msg2 : String)
    (h : map_fields fields m = Except.error msg)
    (h2 : map_fields fields2 m2 = Except.error msg2) :
    msg = "Could not map field %r when displaying results."
    ∧ msg = msg2 := by
  have key : ∀ (fs : List String) (mm : Dict String) (ms : String),
      map_fields fs mm = Except.error ms →
      ms = "Could not map field %r when displaying results." := by
    intro fs mm ms hh
    rw [map_fields] at hh
    cases hl : lookupAll mm fs with
    | none =>
      rw [hl] at hh
      injection hh with h'
      exact h'.symm
    | some hs => rw [hl] at hh; cases hh
  exact ⟨key fields m msg h,
    (key fields m msg h).trans (key fields2 m2 msg2 h2).symm⟩

theorem map_fields_error_message_constant_witness :
    "Could not map field %r when displaying results."
      = "Could not map field %r when displaying results."
    ∧ "Could not map field %r when displaying results."
      = "Could not map field %r when displaying results." :=
  map_fields_error_message_constant ["owner"] ["device"] FIELDS_MAP []
    "Could not map field %r when displaying results."
    "Could not map field %r when displaying results."
    (by rfl) (by rfl)

/-- C6 counterexample: a plugin module that raises a non-ImportError
exception while it loads makes `get_command` crash rather than return the
NotFound outcome. -/
theorem get_command_notfound_counterexample :
    CLI.get_command (ImportOutcome.otherError "ValueError: bad plugin")
      ≠ GetCommandResult.notFound := by
  decide

/-- C6 amended: only a load failure raising `ImportError` yields the
NotFound outcome (the function returns `None`); any exception of another
type raised while the module loads, and the `AttributeError` from a module
without a `cli` attribute, propagate uncaught. -/
theorem get_command_catches_only_importerror :
    (∀ msg, CLI.get_command (ImportOutcome.importError msg)
        = GetCommandResult.notFound)
  ∧ (∀ exc, CLI.get_command (ImportOutcome.otherError exc)
        = GetCommandResult.crash exc)
  ∧ CLI.get_command ImportOutcome.noCliAttr
      = GetCommandResult.crash "AttributeError"
  ∧ (∀ c, CLI.get_command (ImportOutcome.ok c) = GetCommandResult.found c) :=
  ⟨fun _ => rfl, fun _ => rfl, rfl, fun _ => rfl⟩

/-- C7: command discovery returns exactly the stripped `<name>` of every
`cmd_<name>.py` file, sorted ascending; on `cmd_b.py`, `cmd_a.py`,
`cmd_c.py` it returns `a`, `b`, `c`. -/
theorem list_commands_sorted_and_complete (files : List String) :
    (CLI.list_commands files).Sorted (fun a b => a ≤ b)
    ∧ (CLI.list_commands files).Perm
        ((files.filter matchesPlugin).map stripPlugin)
    ∧ CLI.list_commands ["cmd_b.py", "cmd_a.py", "cmd_c.py"]
        = ["a", "b", "c"] := by
  haveI htot : IsTotal String (fun a b => strLe a b = true) := ⟨by
    intro a b
    rcases le_total a b with h | h
    · exact Or.inl ((strLe_iff a b).mpr h)
    · exact Or.inr ((strLe_iff b a).mpr h)⟩
  haveI htrans : IsTrans String (fun a b => strLe a b = true) := ⟨by
    intro a b c hab hbc
    exact (strLe_iff a c).mpr
      (le_trans ((strLe_iff a b).mp hab) ((strLe_iff b c).mp hbc))⟩
  refine ⟨?_, ?_, ?_⟩
  · exact (List.sorted_insertionSort (fun a b => strLe a b = true)
      ((files.filter matchesPlugin).map stripPlugin)).imp
      (fun h => (strLe_iff _ _).mp h)
  · exact List.perm_insertionSort _ _
  · decide

/-- C8: every remote failure of the four actions is routed through
`handle_error`, which formats `[FATAL] <status> <reason> trying to
<action> <singular> with args: <params>` for a structured response and
`[FATAL] <raw>` otherwise, and a fatal outcome exits with code 1. -/
theorem errors_funnel_through_single_handler
    (singular : String) (data : ParamSet) (err : HttpErr)
    (fields? : Option (List String)) (params : ParamSet)
    (putRes : Dict Val → Except HttpErr Unit)
    (obj : Dict Val) (idv : Option Val) (rest : ParamSet)
    (idov : Val) (payload0 : Dict Val)
    (hid : Dict.lookup data "id" ≠ none)
    (hpop : Dict.pop params "id" = some (idv, rest))
    (hpopo : Dict.pop obj "id" = some (idov, payload0)) :
    (∀ (a : String) (d : ParamSet) (e : HttpErr),
        handle_error a singular d e =
          match e.response with
          | some resp =>
            "[FATAL] " ++ toString resp.status_code ++ " " ++ resp.reason ++
              " trying to " ++ a ++ " " ++ singular ++ " with args: " ++
              pretty_dict d
          | none => "[FATAL] " ++ e.raw)
  ∧ (App.add singular data (Except.error err)).2
      = Outcome.fatal (handle_error "add" singular data err)
  ∧ (App.list singular data fields? (Except.error err)).2
      = Outcome.fatal (handle_error "list" singular data err)
  ∧ (App.remove singular data (Except.error err)).2
      = Outcome.fatal (handle_error "remove" singular data err)
  ∧ (App.update singular params (Except.error err) putRes).2
      = Outcome.fatal (handle_error "update" singular rest err)
  ∧ (App.update singular params (Except.ok obj)
        (fun _ => Except.error err)).2
      = Outcome.fatal (handle_error "update" singular rest err)
  ∧ (∀ m, Outcome.exitCode (Outcome.fatal m) = 1) := by
  have hpo : Dict.pop (apiModelDict obj) "id" = some (idov, payload0) := hpopo
  refine ⟨fun a d e => rfl, rfl, rfl, ?_, ?_, ?_, fun m => rfl⟩
  · cases hl : Dict.lookup data "id" with
    | none => exact absurd hl hid
    | some v => simp [App.remove, hl]
  · simp [App.update, hpop]
  · simp [App.update, hpop, hpo]

theorem errors_funnel_through_single_handler_witness :
    (App.add "device"
        [("id", some (Val.int 1)), ("hostname", some (Val.str "dev1"))]
        (Except.error ⟨some ⟨400, "BAD REQUEST"⟩, "400 Client Error"⟩)).2
      = Outcome.fatal
          "[FATAL] 400 BAD REQUEST trying to add device with args: id=1, hostname=\x27dev1\x27" := by
  have h := errors_funnel_through_single_handler "device"
    [("id", some (Val.int 1)), ("hostname", some (Val.str "dev1"))]
    ⟨some ⟨400, "BAD REQUEST"⟩, "400 Client Error"⟩ none
    [("id", some (Val.int 1))] (fun _ => Except.ok ())
    [("id", Val.int 1)] (some (Val.int 1)) [] (Val.int 1) []
    (by decide) (by decide) (by decide)
  rw [h.2.1]
  rfl
